import Mathlib

/-!
Shallow embedding of the Culers' Corner server (src/server.js): an Express +
better-sqlite3 application with five tables (users, players, allocations,
matches, potm_votes) and routes for allocation submission, a leaderboard,
player point adjustment, POTM vote casting, and per-match vote results.

Modelling conventions:
- SQLite integers/reals and JS numbers are modelled as `ℚ` (exotic JS numbers
  NaN/Infinity and 2^53 overflow are outside the modelled fragment).
- The dynamically typed JS request values for `points_allocated` are modelled
  by `JsVal` (numbers, strings, null, undefined).  `Number()` coercion and
  SQLite's numeric affinity are modelled on the fragment of strings that are an
  optional sign followed by decimal digits with an optional fraction; exotic
  formats (hex, exponents, whitespace, `Infinity`) are outside the model.
  On that fragment JS `Number()` and SQLite affinity conversion agree.
- `player_id` request fields are modelled as `Option ℚ` (`none` = absent /
  null / undefined; JS falsiness of a present number is `= 0`).
- `better-sqlite3` does not enable `PRAGMA foreign_keys`, so foreign keys are
  NOT enforced: the model therefore performs no referential checks on writes,
  exactly as the code.
- AUTOINCREMENT ids are modelled by `next_user_id` / `next_vote_id` counters.
- `datetime('now')` timestamps are modelled by a `now : Nat` parameter.
-/

namespace CulersCorner

/-- A JavaScript value, restricted to the shapes the modelled routes can
actually receive for the dynamically-typed body fields. -/
inductive JsVal where
  | num (q : ℚ)
  | str (s : String)
  | null
  | undef
deriving DecidableEq, Repr

/-- Value of a list of decimal digit characters. -/
def digitsToNat (cs : List Char) : ℕ :=
  cs.foldl (fun a c => 10 * a + (c.toNat - 48)) 0

/-- Nonempty and all decimal digits. -/
def allDigits (cs : List Char) : Bool :=
  !cs.isEmpty && cs.all (·.isDigit)

/-- Numeric reading of a string: optional sign, decimal digits, optional
fractional part.  `none` models JS `NaN` / SQLite "does not look numeric".
Models both JS `Number(string)` and SQLite numeric affinity conversion on
this common fragment (where the two agree). -/
def parseNum (s : String) : Option ℚ :=
  let signBody : ℚ × List Char :=
    match s.data with
    | '-' :: r => (-1, r)
    | '+' :: r => (1, r)
    | r => (1, r)
  match signBody.2.splitOn '.' with
  | [w] => if allDigits w then some (signBody.1 * digitsToNat w) else none
  | [w, f] =>
      if allDigits w && allDigits f then
        some (signBody.1 * ((digitsToNat w : ℚ) + (digitsToNat f : ℚ) / ((10 : ℚ) ^ f.length)))
      else none
  | _ => none

/-- JS truthiness of a `JsVal`. -/
def jsTruthy : JsVal → Bool
  | .num q => q != 0
  | .str s => s != ""
  | .null => false
  | .undef => false

/-- JS `Number(v)`; `none` models `NaN`. -/
def jsNumber : JsVal → Option ℚ
  | .num q => some q
  | .str s => if s = "" then some 0 else parseNum s
  | .null => some 0
  | .undef => none

/-- JS `Number(v || 0)` as used on line 125 of server.js: a falsy value is
replaced by `0` before the `Number` coercion. -/
def numberOrZero (v : JsVal) : Option ℚ :=
  if jsTruthy v then jsNumber v else some 0

-- ---------------------------------------------------------------------------
-- Data model (the five tables)
-- ---------------------------------------------------------------------------

structure User where
  id : Nat
  name : String
  email : String
deriving DecidableEq, Repr

structure Player where
  id : Nat
  name : String
  club : String
  photo_url : String
  total_points : ℚ
deriving DecidableEq, Repr

structure Alloc where
  user_id : Nat
  player_id : ℚ
  points_allocated : ℚ
deriving DecidableEq, Repr

structure Match where
  id : Nat
  date : String
  opponent : String
  home_away : String
  status : String
deriving DecidableEq, Repr

structure Vote where
  id : Nat
  match_id : ℚ
  player_id : ℚ
  user_email : String
  created_at : Nat
deriving DecidableEq, Repr

/-- The persistent database state. -/
structure Db where
  users : List User
  players : List Player
  allocations : List Alloc
  matchRows : List Match
  potm_votes : List Vote
  next_user_id : Nat
  next_vote_id : Nat
deriving DecidableEq, Repr

/-- HTTP responses of the modelled routes. -/
inductive Resp where
  | okUser (user : User)
  | okVote
  | okPoints (id : ℚ) (total_points : ℚ)
  | badRequest (error : String)
  | notFound (error : String)
  | serverError (error : String)
deriving DecidableEq, Repr

-- ---------------------------------------------------------------------------
-- Identity resolution (lines 83-84, 129-133, 187-192)
-- ---------------------------------------------------------------------------

/-- `SELECT * FROM users WHERE email = ?` (prepared statement `getUserByEmail`). -/
def getUserByEmail (users : List User) (email : String) : Option User :=
  users.find? (fun u => decide (u.email = email))

/-- Look up the user by email, creating one if absent (the common pattern of
lines 129-133 and 188-192 around `getUserByEmail` / `createUser`). -/
def ensureUser (db : Db) (name email : String) : User × Db :=
  match getUserByEmail db.users email with
  | some u => (u, db)
  | none =>
      let u : User := ⟨db.next_user_id, name, email⟩
      (u, { db with users := db.users ++ [u], next_user_id := db.next_user_id + 1 })

-- ---------------------------------------------------------------------------
-- Allocation submission: POST /api/allocate (lines 120-148)
-- ---------------------------------------------------------------------------

/-- One element of the request's `allocations` array. -/
structure AllocEntry where
  player_id : Option ℚ
  points_allocated : JsVal
deriving DecidableEq, Repr

/-- The request body of POST /api/allocate. -/
structure AllocReq where
  name : String
  email : String
  allocations : List AllocEntry
deriving DecidableEq, Repr

/-- Line 125: `allocations.reduce((s, a) => s + Number(a.points_allocated || 0), 0)`.
`none` models a NaN total (a NaN summand poisons the whole sum). -/
def codeTotal (entries : List AllocEntry) : Option ℚ :=
  entries.foldl
    (fun s a =>
      match s, numberOrZero a.points_allocated with
      | some x, some y => some (x + y)
      | _, _ => none)
    (some 0)

/-- Lines 85-89: `INSERT INTO allocations ... ON CONFLICT(user_id, player_id)
DO UPDATE SET points_allocated = excluded.points_allocated`. -/
def upsertAllocation (allocs : List Alloc) (uid : Nat) (pid : ℚ) (pts : ℚ) : List Alloc :=
  if allocs.any (fun a => decide (a.user_id = uid ∧ a.player_id = pid)) then
    allocs.map (fun a =>
      if a.user_id = uid ∧ a.player_id = pid then
        { a with points_allocated := pts }
      else a)
  else
    allocs ++ [⟨uid, pid, pts⟩]

/-- Binding a `JsVal` as the `points_allocated` column value (better-sqlite3
binding + INTEGER column affinity).  `null` violates NOT NULL and `undefined`
is not bindable, so both abort the statement.  A string is converted by
numeric affinity; a string that does not look numeric is stored as TEXT,
which compares above every number so it passes the `CHECK(points_allocated
>= 0)` and reads back as 0 in arithmetic — modelled directly as storing 0. -/
def bindPoints : JsVal → Except String ℚ
  | .num q => .ok q
  | .str s => .ok ((parseNum s).getD 0)
  | .null => .error "NOT NULL constraint failed: allocations.points_allocated"
  | .undef => .error "Invalid value"

/-- The loop of lines 134-137 inside the transaction: for each entry, throw if
`player_id` is falsy, else run `upsertAllocation`; an out-of-range value
violating the CHECK constraint aborts the statement. -/
def allocLoop (uid : Nat) : List AllocEntry → List Alloc → Except String (List Alloc)
  | [], acc => .ok acc
  | a :: rest, acc =>
      if a.player_id.getD 0 = 0 then .error "player_id missing"
      else
        match bindPoints a.points_allocated with
        | .error e => .error e
        | .ok pts =>
            if pts < 0 then .error "CHECK constraint failed: points_allocated >= 0"
            else allocLoop uid rest (upsertAllocation acc uid (a.player_id.getD 0) pts)

/-- The transaction body of lines 128-139: resolve/create the user, then
upsert every entry; any thrown error rolls the whole transaction back. -/
def runAllocTx (db : Db) (req : AllocReq) : Except String (User × Db) :=
  let ud := ensureUser db req.name req.email
  match allocLoop ud.1.id req.allocations ud.2.allocations with
  | .error e => .error e
  | .ok allocs => .ok (ud.1, { ud.2 with allocations := allocs })

/-- POST /api/allocate (lines 120-148).  Validation: required fields, then
total = 100; then the transaction, whose failure rolls back every write and
answers 500 "Allocation failed". -/
def submitAllocations (db : Db) (req : AllocReq) : Resp × Db :=
  if req.name = "" ∨ req.email = "" then
    (.badRequest "name, email, allocations[] required", db)
  else if codeTotal req.allocations ≠ some 100 then
    (.badRequest "Total allocated points must equal 100", db)
  else
    match runAllocTx db req with
    | .error _ => (.serverError "Allocation failed", db)
    | .ok (user, db1) => (.okUser user, db1)

-- ---------------------------------------------------------------------------
-- Leaderboard: GET /api/leaderboard (lines 150-162)
-- ---------------------------------------------------------------------------

/-- The per-user aggregate of the leaderboard query:
`COALESCE(SUM(a.points_allocated * p.total_points / 100.0), 0)` over the
user's allocations LEFT JOINed to players; an allocation whose `player_id`
matches no player contributes NULL, which `SUM` skips. -/
def portfolio (db : Db) (uid : Nat) : ℚ :=
  (db.allocations.filter (fun a => decide (a.user_id = uid))).foldl
    (fun s a =>
      match db.players.find? (fun p => decide ((p.id : ℚ) = a.player_id)) with
      | some p => s + a.points_allocated * p.total_points / 100
      | none => s)
    0

/-- One output row of the leaderboard query. -/
structure LBRow where
  id : Nat
  name : String
  email : String
  portfolio_points : ℚ
deriving DecidableEq, Repr

/-- `ORDER BY portfolio_points DESC, u.id ASC`. -/
def lbRel (r1 r2 : LBRow) : Prop :=
  r2.portfolio_points < r1.portfolio_points ∨
    (r1.portfolio_points = r2.portfolio_points ∧ r1.id ≤ r2.id)

instance : DecidableRel lbRel := fun r1 r2 => by
  unfold lbRel; infer_instance

/-- GET /api/leaderboard (lines 150-162): one row per user with the aggregate,
ordered by `portfolio_points DESC, u.id ASC`, `LIMIT 100`. -/
def leaderboard (db : Db) : List LBRow :=
  ((db.users.map (fun u => LBRow.mk u.id u.name u.email (portfolio db u.id))).insertionSort
    lbRel).take 100

-- ---------------------------------------------------------------------------
-- Point adjustment: POST /api/players/:id/points (lines 107-117)
-- ---------------------------------------------------------------------------

/-- Lines 112-114: `let newTotal = row.total_points; if (typeof set ===
'number') newTotal = set; if (typeof delta === 'number') newTotal = newTotal +
delta`. -/
def newTotalCalc (cur : ℚ) (delta set : JsVal) : ℚ :=
  let t := match set with | .num q => q | _ => cur
  match delta with | .num q => t + q | _ => t

/-- POST /api/players/:id/points (lines 107-117). -/
def adjustPoints (db : Db) (id : ℚ) (delta set : JsVal) : Resp × Db :=
  match db.players.find? (fun p => decide ((p.id : ℚ) = id)) with
  | none => (.notFound "Player not found", db)
  | some row =>
      (.okPoints id (newTotalCalc row.total_points delta set),
       { db with players := db.players.map (fun p =>
           if (p.id : ℚ) = id then
             { p with total_points := newTotalCalc row.total_points delta set }
           else p) })

-- ---------------------------------------------------------------------------
-- POTM votes: POST /api/potm/:match_id/vote (lines 179-201)
-- ---------------------------------------------------------------------------

/-- The request body of POST /api/potm/:match_id/vote. -/
structure VoteReq where
  name : String
  email : String
  player_id : Option ℚ
deriving DecidableEq, Repr

/-- Lines 194-198: `INSERT INTO potm_votes ... ON CONFLICT(match_id,
user_email) DO UPDATE SET player_id = excluded.player_id, created_at =
datetime('now')`. -/
def upsertVote (db : Db) (m pid : ℚ) (email : String) (now : Nat) : Db :=
  if db.potm_votes.any (fun v => decide (v.match_id = m ∧ v.user_email = email)) then
    { db with potm_votes := db.potm_votes.map (fun v =>
        if v.match_id = m ∧ v.user_email = email then
          { v with player_id := pid, created_at := now }
        else v) }
  else
    { db with
      potm_votes := db.potm_votes ++ [⟨db.next_vote_id, m, pid, email, now⟩],
      next_vote_id := db.next_vote_id + 1 }

/-- POST /api/potm/:match_id/vote (lines 179-201): validate required fields,
404 on unknown match, ensure the user row exists, then upsert the vote keyed
on (match_id, user_email). -/
def castVote (db : Db) (match_id : ℚ) (req : VoteReq) (now : Nat) : Resp × Db :=
  if req.name = "" ∨ req.email = "" ∨ req.player_id.getD 0 = 0 then
    (.badRequest "name, email, player_id required", db)
  else
    match db.matchRows.find? (fun m => decide ((m.id : ℚ) = match_id)) with
    | none => (.notFound "Match not found", db)
    | some _ =>
        let ud := ensureUser db req.name req.email
        (.okVote, upsertVote ud.2 match_id (req.player_id.getD 0) req.email now)

-- ---------------------------------------------------------------------------
-- POTM results: GET /api/potm/:match_id/results (lines 203-213)
-- ---------------------------------------------------------------------------

/-- One output row of the results query. -/
structure ResRow where
  player_id : Nat
  player_name : String
  votes : Nat
deriving DecidableEq, Repr

/-- `COUNT(v.id)` over the LEFT JOIN restricted to this player and match. -/
def voteCount (db : Db) (m : ℚ) (pid : Nat) : Nat :=
  (db.potm_votes.filter (fun v => decide (v.match_id = m ∧ v.player_id = (pid : ℚ)))).length

/-- `ORDER BY votes DESC, p.name ASC`. -/
def resRel (r1 r2 : ResRow) : Prop :=
  r2.votes < r1.votes ∨ (r1.votes = r2.votes ∧ r1.player_name ≤ r2.player_name)

instance : DecidableRel resRel := fun r1 r2 => by
  unfold resRel; infer_instance

/-- GET /api/potm/:match_id/results (lines 203-213): one row per player from
the registry (LEFT JOIN + GROUP BY p.id), with that player's vote count for
the match, ordered by `votes DESC, p.name ASC`. -/
def results (db : Db) (match_id : ℚ) : List ResRow :=
  ((db.players.map (fun p => ResRow.mk p.id p.name (voteCount db match_id p.id))).insertionSort
    resRel)

-- ---------------------------------------------------------------------------
-- Invariants and helper lemmas
-- ---------------------------------------------------------------------------

/-- The UNIQUE(user_id, player_id) constraint of the allocations table. -/
def AllocKeyUnique (allocs : List Alloc) : Prop :=
  allocs.Pairwise (fun a b => ¬(a.user_id = b.user_id ∧ a.player_id = b.player_id))

/-- The UNIQUE(match_id, user_email) constraint of the potm_votes table. -/
def VoteKeyUnique (votes : List Vote) : Prop :=
  votes.Pairwise (fun v w => ¬(v.match_id = w.match_id ∧ v.user_email = w.user_email))

instance : IsTrans LBRow lbRel := by
  constructor
  intro a b c hab hbc
  rcases hab with h1 | ⟨h1, h1'⟩ <;> rcases hbc with h2 | ⟨h2, h2'⟩
  · exact Or.inl (h2.trans h1)
  · exact Or.inl (h2 ▸ h1)
  · exact Or.inl (h1 ▸ h2)
  · exact Or.inr ⟨h1.trans h2, h1'.trans h2'⟩

instance : IsTotal LBRow lbRel := by
  constructor
  intro a b
  rcases lt_trichotomy a.portfolio_points b.portfolio_points with h | h | h
  · exact Or.inr (Or.inl h)
  · rcases Nat.le_total a.id b.id with h' | h'
    · exact Or.inl (Or.inr ⟨h, h'⟩)
    · exact Or.inr (Or.inr ⟨h.symm, h'⟩)
  · exact Or.inl (Or.inl h)

instance : IsTrans ResRow resRel := by
  constructor
  intro a b c hab hbc
  rcases hab with h1 | ⟨h1, h1'⟩ <;> rcases hbc with h2 | ⟨h2, h2'⟩
  · exact Or.inl (h2.trans h1)
  · exact Or.inl (h2 ▸ h1)
  · exact Or.inl (h1 ▸ h2)
  · exact Or.inr ⟨h1.trans h2, h1'.trans h2'⟩

instance : IsTotal ResRow resRel := by
  constructor
  intro a b
  rcases lt_trichotomy a.votes b.votes with h | h | h
  · exact Or.inr (Or.inl h)
  · rcases le_total a.player_name b.player_name with h' | h'
    · exact Or.inl (Or.inr ⟨h, h'⟩)
    · exact Or.inr (Or.inr ⟨h.symm, h'⟩)
  · exact Or.inl (Or.inl h)

/-- A left fold that adds `g a` at each step computes `init` plus the sum. -/
theorem foldl_add_eq_sum {α : Type} (g : α → ℚ) :
    ∀ (l : List α) (f : ℚ → α → ℚ) (init : ℚ),
      (∀ s a, a ∈ l → f s a = s + g a) →
      l.foldl f init = init + (l.map g).sum
  | [], _, init, _ => by simp
  | a :: l, f, init, h => by
      rw [List.foldl_cons, List.map_cons, List.sum_cons,
        h init a (List.mem_cons_self a l),
        foldl_add_eq_sum g l f (init + g a)
          (fun s b hb => h s b (List.mem_cons_of_mem _ hb))]
      ring

/-- The allocation conflict-update keeps the key columns of a row. -/
theorem updAlloc_key (a : Alloc) (uid : Nat) (pid pts : ℚ) :
    ((if a.user_id = uid ∧ a.player_id = pid then { a with points_allocated := pts }
      else a) : Alloc).user_id = a.user_id ∧
    ((if a.user_id = uid ∧ a.player_id = pid then { a with points_allocated := pts }
      else a) : Alloc).player_id = a.player_id := by
  split <;> exact ⟨rfl, rfl⟩

/-- `upsertAllocation` preserves the allocations UNIQUE constraint. -/
theorem upsertAllocation_keyUnique {allocs : List Alloc} {uid : Nat} {pid pts : ℚ}
    (h : AllocKeyUnique allocs) : AllocKeyUnique (upsertAllocation allocs uid pid pts) := by
  unfold upsertAllocation
  split
  · refine List.pairwise_map.2 (h.imp ?_)
    intro a b hab hk
    refine hab ?_
    rcases hk with ⟨h1, h2⟩
    rw [(updAlloc_key a uid pid pts).1, (updAlloc_key b uid pid pts).1] at h1
    rw [(updAlloc_key a uid pid pts).2, (updAlloc_key b uid pid pts).2] at h2
    exact ⟨h1, h2⟩
  · rename_i hany
    rw [Bool.not_eq_true] at hany
    have hall := List.any_eq_false.1 hany
    refine List.pairwise_append.2 ⟨h, List.pairwise_singleton _ _, ?_⟩
    intro a ha b hb hk
    have := hall a ha
    simp only [List.mem_singleton] at hb
    subst hb
    simp only [decide_eq_true_eq] at this
    exact this hk

/-- The per-entry upsert loop preserves the allocations UNIQUE constraint. -/
theorem allocLoop_keyUnique {uid : Nat} :
    ∀ {entries : List AllocEntry} {acc res : List Alloc},
      AllocKeyUnique acc → allocLoop uid entries acc = .ok res → AllocKeyUnique res := by
  intro entries
  induction entries with
  | nil => intro acc res h hr; cases hr; exact h
  | cons a rest ih =>
      intro acc res h hr
      unfold allocLoop at hr
      split at hr
      · cases hr
      · split at hr
        · cases hr
        · split at hr
          · cases hr
          · exact ih (upsertAllocation_keyUnique h) hr

/-- `submitAllocations` preserves the allocations UNIQUE constraint. -/
theorem submitAllocations_keyUnique {db : Db} {req : AllocReq}
    (h : AllocKeyUnique db.allocations) :
    AllocKeyUnique (submitAllocations db req).2.allocations := by
  unfold submitAllocations
  split
  · exact h
  · split
    · exact h
    · unfold runAllocTx
      rcases hloop : allocLoop (ensureUser db req.name req.email).1.id req.allocations
          (ensureUser db req.name req.email).2.allocations with e | allocs
      · simpa [hloop] using h
      · have hacc : AllocKeyUnique (ensureUser db req.name req.email).2.allocations := by
          unfold ensureUser
          split <;> exact h
        simpa [hloop] using allocLoop_keyUnique hacc hloop

/-- The vote conflict-update keeps the key columns of a row. -/
theorem updVote_key (v : Vote) (m pid : ℚ) (email : String) (now : Nat) :
    ((if v.match_id = m ∧ v.user_email = email then
        { v with player_id := pid, created_at := now } else v) : Vote).match_id = v.match_id ∧
    ((if v.match_id = m ∧ v.user_email = email then
        { v with player_id := pid, created_at := now } else v) : Vote).user_email = v.user_email := by
  split <;> exact ⟨rfl, rfl⟩

/-- `upsertVote` preserves the potm_votes UNIQUE constraint. -/
theorem upsertVote_keyUnique {db : Db} {m pid : ℚ} {email : String} {now : Nat}
    (h : VoteKeyUnique db.potm_votes) :
    VoteKeyUnique (upsertVote db m pid email now).potm_votes := by
  unfold upsertVote
  split
  · refine List.pairwise_map.2 (h.imp ?_)
    intro a b hab hk
    refine hab ?_
    rcases hk with ⟨h1, h2⟩
    rw [(updVote_key a m pid email now).1, (updVote_key b m pid email now).1] at h1
    rw [(updVote_key a m pid email now).2, (updVote_key b m pid email now).2] at h2
    exact ⟨h1, h2⟩
  · rename_i hany
    rw [Bool.not_eq_true] at hany
    have hall := List.any_eq_false.1 hany
    refine List.pairwise_append.2 ⟨h, List.pairwise_singleton _ _, ?_⟩
    intro a ha b hb hk
    have := hall a ha
    simp only [List.mem_singleton] at hb
    subst hb
    simp only [decide_eq_true_eq] at this
    exact this hk

/-- `castVote` preserves the potm_votes UNIQUE constraint. -/
theorem castVote_keyUnique {db : Db} {m : ℚ} {req : VoteReq} {now : Nat}
    (h : VoteKeyUnique db.potm_votes) :
    VoteKeyUnique (castVote db m req now).2.potm_votes := by
  unfold castVote
  split
  · exact h
  · split
    · exact h
    · have he : (ensureUser db req.name req.email).2.potm_votes = db.potm_votes := by
        unfold ensureUser; split <;> rfl
      exact upsertVote_keyUnique (he ▸ h)

/-- If some entry has a falsy `player_id`, the upsert loop throws. -/
theorem allocLoop_error_of_missing {uid : Nat} :
    ∀ {entries : List AllocEntry} (acc : List Alloc),
      (∃ a ∈ entries, a.player_id.getD 0 = 0) →
      ∃ e, allocLoop uid entries acc = .error e := by
  intro entries
  induction entries with
  | nil => intro acc h; rcases h with ⟨a, ha, _⟩; cases ha
  | cons a rest ih =>
      intro acc h
      unfold allocLoop
      split
      · exact ⟨_, rfl⟩
      · rename_i hpid
        rcases h with ⟨b, hb, hbz⟩
        rcases List.mem_cons.1 hb with rfl | hbr
        · exact absurd hbz hpid
        · rcases hbind : bindPoints a.points_allocated with e | pts
          · exact ⟨e, rfl⟩
          · show ∃ e, (if pts < 0 then _ else allocLoop uid rest _) = Except.error e
            split
            · exact ⟨_, rfl⟩
            · exact ih _ ⟨b, hbr, hbz⟩

/-- A map that fixes every element of the list is the identity on it. -/
theorem map_eq_self_of {α : Type} {l : List α} {f : α → α} (h : ∀ x ∈ l, f x = x) :
    l.map f = l := by
  induction l with
  | nil => rfl
  | cons a t ih =>
      rw [List.map_cons, h a (List.mem_cons_self a t),
        ih fun x hx => h x (List.mem_cons_of_mem _ hx)]

/-- Two rows of an id-distinct player list with the same id are the same row. -/
theorem player_eq_of_id_eq {l : List Player}
    (h : l.Pairwise (fun p q => p.id ≠ q.id)) {p q : Player}
    (hp : p ∈ l) (hq : q ∈ l) (hid : p.id = q.id) : p = q := by
  by_contra hne
  have hsym : Symmetric fun p q : Player => p.id ≠ q.id := fun _ _ hab => hab.symm
  exact absurd hid (h.forall hsym hp hq hne)

/-- When the email already has a user row, `ensureUser` returns it and leaves
the state untouched. -/
theorem ensureUser_of_found {db : Db} {name email : String} {u : User}
    (h : getUserByEmail db.users email = some u) :
    ensureUser db name email = (u, db) := by
  unfold ensureUser
  rw [h]

/-- `ensureUser` never touches allocations, matches or votes. -/
theorem ensureUser_frame (db : Db) (name email : String) :
    (ensureUser db name email).2.allocations = db.allocations ∧
    (ensureUser db name email).2.matchRows = db.matchRows ∧
    (ensureUser db name email).2.potm_votes = db.potm_votes := by
  unfold ensureUser
  rcases getUserByEmail db.users email with _ | u <;> exact ⟨rfl, rfl, rfl⟩

/-- `upsertVote` never touches the users table. -/
theorem upsertVote_users (db : Db) (m pid : ℚ) (email : String) (now : Nat) :
    (upsertVote db m pid email now).users = db.users := by
  unfold upsertVote
  split <;> rfl

/-- When the email already has a user row, `submitAllocations` leaves the
users table unchanged, and a success reply returns exactly the stored row. -/
theorem submitAllocations_users_frame {db : Db} {req : AllocReq} {u : User}
    (h : getUserByEmail db.users req.email = some u) :
    (submitAllocations db req).2.users = db.users ∧
    ∀ u', (submitAllocations db req).1 = .okUser u' → u' = u := by
  unfold submitAllocations
  split
  · exact ⟨rfl, fun u' h' => by cases h'⟩
  · split
    · exact ⟨rfl, fun u' h' => by cases h'⟩
    · simp only [runAllocTx, ensureUser_of_found h]
      rcases hloop : allocLoop u.id req.allocations db.allocations with e | allocs
      · refine ⟨?_, fun u' h' => ?_⟩ <;> simp only [hloop] at *
        cases h'
      · refine ⟨?_, fun u' h' => ?_⟩ <;> simp only [hloop] at *
        cases h'
        rfl

/-- When the email already has a user row, `castVote` leaves the users table
unchanged. -/
theorem castVote_users_frame {db : Db} {m : ℚ} {req : VoteReq} {now : Nat} {u : User}
    (h : getUserByEmail db.users req.email = some u) :
    (castVote db m req now).2.users = db.users := by
  unfold castVote
  split
  · rfl
  · rcases hfind : db.matchRows.find? (fun mt => decide ((mt.id : ℚ) = m)) with _ | mt <;>
      simp only [hfind]
    simp only [ensureUser_of_found h]
    exact upsertVote_users db m (req.player_id.getD 0) req.email now

/-- On a key conflict, `upsertVote` rewrites the row in place: same row
count, and the matching row now carries the new player and timestamp. -/
theorem upsertVote_inPlace {db : Db} {m pid : ℚ} {email : String} {now : Nat}
    (h : (db.potm_votes.any fun v => decide (v.match_id = m ∧ v.user_email = email)) = true) :
    (upsertVote db m pid email now).potm_votes.length = db.potm_votes.length ∧
    ∀ w ∈ (upsertVote db m pid email now).potm_votes,
      w.match_id = m → w.user_email = email → w.player_id = pid ∧ w.created_at = now := by
  unfold upsertVote
  rw [if_pos h]
  refine ⟨List.length_map _ _, ?_⟩
  intro w hw hwm hwe
  rcases List.mem_map.1 hw with ⟨v, _, rfl⟩
  revert hwm hwe
  split
  · exact fun _ _ => ⟨rfl, rfl⟩
  · rename_i hk
    exact fun hwm hwe => absurd ⟨hwm, hwe⟩ hk

/-- On a key conflict, `upsertAllocation` rewrites the row in place: same row
count, and the matching row now carries the new point value. -/
theorem upsertAllocation_inPlace {allocs : List Alloc} {uid : Nat} {pid pts : ℚ}
    (h : (allocs.any fun a => decide (a.user_id = uid ∧ a.player_id = pid)) = true) :
    (upsertAllocation allocs uid pid pts).length = allocs.length ∧
    ∀ a ∈ upsertAllocation allocs uid pid pts,
      a.user_id = uid → a.player_id = pid → a.points_allocated = pts := by
  unfold upsertAllocation
  rw [if_pos h]
  refine ⟨List.length_map _ _, ?_⟩
  intro a ha hau hap
  rcases List.mem_map.1 ha with ⟨b, _, rfl⟩
  revert hau hap
  split
  · exact fun _ _ => rfl
  · rename_i hk
    exact fun hau hap => absurd ⟨hau, hap⟩ hk

/-- A validated vote on an existing match reaches the upsert. -/
theorem castVote_success {db : Db} {m : ℚ} {req : VoteReq} {now : Nat} {mt : Match}
    (h1 : ¬(req.name = "" ∨ req.email = "" ∨ req.player_id.getD 0 = 0))
    (h2 : db.matchRows.find? (fun mr => decide ((mr.id : ℚ) = m)) = some mt) :
    castVote db m req now =
      (.okVote, upsertVote (ensureUser db req.name req.email).2 m
        (req.player_id.getD 0) req.email now) := by
  unfold castVote
  rw [if_neg h1, h2]

/-- A user whose filtered allocation list is empty scores 0 (the COALESCE
branch of the leaderboard query). -/
theorem portfolio_of_no_allocations {db : Db} {uid : Nat}
    (h : db.allocations.filter (fun a => decide (a.user_id = uid)) = []) :
    portfolio db uid = 0 := by
  unfold portfolio
  rw [h]
  rfl

/-- When every allocation of the user resolves to a player (given by `pf`),
the aggregate is exactly the sum of `points_allocated × total_points / 100`
over the user's allocations. -/
theorem portfolio_formula {db : Db} {uid : Nat} (pf : Alloc → Player)
    (h : ∀ a ∈ db.allocations, a.user_id = uid →
      db.players.find? (fun p => decide ((p.id : ℚ) = a.player_id)) = some (pf a)) :
    portfolio db uid =
      ((db.allocations.filter (fun a => decide (a.user_id = uid))).map
        (fun a => a.points_allocated * (pf a).total_points / 100)).sum := by
  unfold portfolio
  rw [foldl_add_eq_sum (fun a => a.points_allocated * (pf a).total_points / 100) _ _ 0
    (fun s a ha => ?_), zero_add]
  rcases List.mem_filter.1 ha with ⟨ham, huid⟩
  rw [h a ham (of_decide_eq_true huid)]

/-- Every leaderboard row comes from a stored user and carries that user's
aggregate. -/
theorem leaderboard_mem {db : Db} {r : LBRow} (h : r ∈ leaderboard db) :
    ∃ u ∈ db.users, r.id = u.id ∧ r.name = u.name ∧ r.email = u.email ∧
      r.portfolio_points = portfolio db u.id := by
  unfold leaderboard at h
  rcases List.mem_map.1 ((List.mem_insertionSort lbRel).1 (List.take_subset _ _ h)) with
    ⟨u, hu, rfl⟩
  exact ⟨u, hu, rfl, rfl, rfl, rfl⟩

/-- An unknown player id makes the point adjustment 404 without a write. -/
theorem adjustPoints_notFound {db : Db} {id : ℚ} {delta set : JsVal}
    (h : db.players.find? (fun p => decide ((p.id : ℚ) = id)) = none) :
    adjustPoints db id delta set = (.notFound "Player not found", db) := by
  unfold adjustPoints
  rw [h]

/-- On an existing player the adjustment answers the recomputed total and
stores it on every row with that id. -/
theorem adjustPoints_found {db : Db} {id : ℚ} {delta set : JsVal} {row : Player}
    (h : db.players.find? (fun p => decide ((p.id : ℚ) = id)) = some row) :
    (adjustPoints db id delta set).1 =
      .okPoints id (newTotalCalc row.total_points delta set) ∧
    ∀ p ∈ (adjustPoints db id delta set).2.players,
      (p.id : ℚ) = id → p.total_points = newTotalCalc row.total_points delta set := by
  unfold adjustPoints
  rw [h]
  refine ⟨rfl, ?_⟩
  intro p hp hpid
  rcases List.mem_map.1 hp with ⟨q, _, rfl⟩
  revert hpid
  split
  · exact fun _ => rfl
  · exact fun hpid => absurd hpid (by assumption)

/-- `set` then `delta` when both are numbers. -/
theorem newTotalCalc_both (cur s d : ℚ) :
    newTotalCalc cur (.num d) (.num s) = s + d := rfl

/-- A numeric `set` alone replaces the total. -/
theorem newTotalCalc_set_only (cur s : ℚ) (delta : JsVal)
    (h : ∀ q, delta ≠ .num q) : newTotalCalc cur delta (.num s) = s := by
  unfold newTotalCalc
  cases delta with
  | num q => exact absurd rfl (h q)
  | str _ => rfl
  | null => rfl
  | undef => rfl

/-- A numeric `delta` alone is added to the current total. -/
theorem newTotalCalc_delta_only (cur d : ℚ) (set : JsVal)
    (h : ∀ q, set ≠ .num q) : newTotalCalc cur (.num d) set = cur + d := by
  unfold newTotalCalc
  cases set with
  | num q => exact absurd rfl (h q)
  | str _ => rfl
  | null => rfl
  | undef => rfl

/-- With neither field a number the total is untouched. -/
theorem newTotalCalc_none (cur : ℚ) (delta set : JsVal)
    (hd : ∀ q, delta ≠ .num q) (hs : ∀ q, set ≠ .num q) :
    newTotalCalc cur delta set = cur := by
  unfold newTotalCalc
  cases set with
  | num q => exact absurd rfl (hs q)
  | str _ => cases delta with
    | num q => exact absurd rfl (hd q)
    | str _ => rfl
    | null => rfl
    | undef => rfl
  | null => cases delta with
    | num q => exact absurd rfl (hd q)
    | str _ => rfl
    | null => rfl
    | undef => rfl
  | undef => cases delta with
    | num q => exact absurd rfl (hd q)
    | str _ => rfl
    | null => rfl
    | undef => rfl

/-- A total different from 100 (or NaN) is rejected before the transaction:
400 with the total message and no state change. -/
theorem submitAllocations_total_rejected {db : Db} {req : AllocReq}
    (hn : req.name ≠ "") (he : req.email ≠ "")
    (ht : codeTotal req.allocations ≠ some 100) :
    submitAllocations db req =
      (.badRequest "Total allocated points must equal 100", db) := by
  unfold submitAllocations
  rw [if_neg (fun h => h.elim hn he), if_pos ht]

/-- A falsy `player_id` in any entry aborts the transaction: the rollback
leaves the state untouched and the route answers the generic 500. -/
theorem submitAllocations_error_of_missing {db : Db} {req : AllocReq}
    (hn : req.name ≠ "") (he : req.email ≠ "")
    (ht : codeTotal req.allocations = some 100)
    (hex : ∃ a ∈ req.allocations, a.player_id.getD 0 = 0) :
    submitAllocations db req = (.serverError "Allocation failed", db) := by
  unfold submitAllocations
  rw [if_neg (fun h => h.elim hn he), if_neg (fun hc => hc ht)]
  obtain ⟨e, hloop⟩ := @allocLoop_error_of_missing
    ((ensureUser db req.name req.email).1.id) req.allocations
    ((ensureUser db req.name req.email).2.allocations) hex
  simp only [runAllocTx, hloop]

/-- With an existing player, distinct ids and no numeric `set`/`delta`, the
adjustment is a no-op that reports the stored total. -/
theorem adjustPoints_noop {db : Db} {id : ℚ} {delta set : JsVal} {row : Player}
    (hids : db.players.Pairwise (fun p q => p.id ≠ q.id))
    (hfind : db.players.find? (fun p => decide ((p.id : ℚ) = id)) = some row)
    (hd : ∀ q, delta ≠ .num q) (hs : ∀ q, set ≠ .num q) :
    adjustPoints db id delta set = (.okPoints id row.total_points, db) := by
  have ht := newTotalCalc_none row.total_points delta set hd hs
  have hmap : db.players.map
      (fun p => if (p.id : ℚ) = id then
        { p with total_points := newTotalCalc row.total_points delta set }
      else p) = db.players := by
    apply map_eq_self_of
    intro p hp
    split
    · rename_i hpe
      have hrow_id : (row.id : ℚ) = id := by
        have hb := List.find?_some hfind
        exact of_decide_eq_true hb
      have hid : p.id = row.id := by
        have hq : (p.id : ℚ) = (row.id : ℚ) := by rw [hpe, hrow_id]
        exact_mod_cast hq
      have hpr : p = row := player_eq_of_id_eq hids hp (List.mem_of_find?_eq_some hfind) hid
      subst hpr
      rw [ht]
    · rfl
  simp only [adjustPoints, hfind]
  rw [hmap, ht]

-- ---------------------------------------------------------------------------
-- Concrete states and requests for the scenario parts of the claims
-- ---------------------------------------------------------------------------

/-- Two seeded players: A with 80 season points, B with 20; no users yet. -/
def dbTwoPlayers : Db := ⟨[], [⟨1, "A", "", "", 80⟩, ⟨2, "B", "", "", 20⟩], [], [], [], 1, 1⟩

/-- An allocation request whose `points_allocated` values are the numeric
string "60" and the number 40. -/
def reqStr60 : AllocReq := ⟨"n", "e", [⟨some 1, .str "60"⟩, ⟨some 2, .num 40⟩]⟩

/-- An allocation request summing to 90. -/
def reqTotal90 : AllocReq := ⟨"n", "e", [⟨some 1, .num 50⟩, ⟨some 2, .num 40⟩]⟩

/-- An allocation request whose single entry lacks `player_id`. -/
def reqMissingPid : AllocReq := ⟨"n", "e", [⟨none, .num 100⟩]⟩

/-- User U allocated {A: 60, B: 40} over players with totals 80 and 20. -/
def dbPortfolio : Db := ⟨[⟨1, "U", "u@x"⟩], [⟨1, "A", "", "", 80⟩, ⟨2, "B", "", "", 20⟩],
  [⟨1, 1, 60⟩, ⟨1, 2, 40⟩], [], [], 2, 1⟩

/-- The player resolved by each of `dbPortfolio`'s allocations. -/
def pfPortfolio (a : Alloc) : Player :=
  if a.player_id = (1 : ℚ) then ⟨1, "A", "", "", 80⟩ else ⟨2, "B", "", "", 20⟩

/-- Players Alpha and Beta and one match, no votes yet. -/
def dbPoll : Db := ⟨[], [⟨1, "Alpha", "", "", 0⟩, ⟨2, "Beta", "", "", 0⟩], [],
  [⟨1, "2025-01-01", "X", "HOME", "final"⟩], [], 1, 1⟩

/-- `dbPoll` after user e voted Alpha on match 1. -/
def dbPoll1 : Db := (castVote dbPoll 1 ⟨"n", "e", some 1⟩ 0).2

/-- `dbPoll1` after the same user re-voted Beta on match 1. -/
def dbPoll2 : Db := (castVote dbPoll1 1 ⟨"n", "e", some 2⟩ 1).2

/-- One player A with 0 points. -/
def dbOnePlayer : Db := ⟨[], [⟨1, "A", "", "", 0⟩], [], [], [], 1, 1⟩

/-- `dbOnePlayer` after adjustPoints(A, set 50). -/
def dbOnePlayer50 : Db := (adjustPoints dbOnePlayer 1 .undef (.num 50)).2

/-- The submission total as claim C1 words it: `points_allocated` summed with
every non-numeric value (any value that is not a JS number) coerced to 0.
This definition follows the SPEC's words, for comparison with `codeTotal`,
which is the code's computation on line 125. -/
def specTotal (entries : List AllocEntry) : ℚ :=
  (entries.map (fun a => match a.points_allocated with | .num q => q | _ => 0)).sum

-- ---------------------------------------------------------------------------
-- Claims
-- ---------------------------------------------------------------------------

/-- C1, counterexample: the submission {player 1: "60" (a string), player 2:
40} has spec-total 40 ≠ 100 (the string is a non-numeric value, which the
claim coerces to 0), yet the code coerces "60" with JS `Number` to 60, accepts
the submission and writes both rows instead of rejecting it. -/
theorem claim_C1_counterexample :
    specTotal reqStr60.allocations = 40 ∧ (40 : ℚ) ≠ 100 ∧
    (submitAllocations dbTwoPlayers reqStr60).1 = .okUser ⟨1, "n", "e"⟩ ∧
    (submitAllocations dbTwoPlayers reqStr60).2.allocations =
      [⟨1, 1, 60⟩, ⟨1, 2, 40⟩] := by
  have h : (submitAllocations dbTwoPlayers reqStr60).1 = .okUser ⟨1, "n", "e"⟩ ∧
      (submitAllocations dbTwoPlayers reqStr60).2.allocations =
        [⟨1, 1, 60⟩, ⟨1, 2, 40⟩] := by
    simp [submitAllocations, runAllocTx, ensureUser, getUserByEmail, codeTotal,
      numberOrZero, jsTruthy, jsNumber, parseNum, allDigits, digitsToNat,
      dbTwoPlayers, reqStr60, allocLoop, bindPoints, upsertAllocation, List.find?,
      List.foldl, List.any, List.splitOn, List.splitOnP, List.splitOnP.go,
      List.all, List.map, Option.getD]
    norm_num
  refine ⟨?_, by norm_num, h.1, h.2⟩
  norm_num [specTotal, reqStr60]

/-- C1, amended: for every submission with `name` and `email` present whose
`points_allocated` values, coerced by JS `Number(v || 0)` (numeric strings to
their numeric value, falsy values to 0, other non-numeric values to NaN,
which poisons the sum), do not total exactly 100, the route rejects with the
400 validation error "Total allocated points must equal 100" and the state —
in particular the prior allocation rows of every user — is unchanged. -/
theorem claim_C1 (db : Db) (req : AllocReq) (hn : req.name ≠ "") (he : req.email ≠ "")
    (ht : codeTotal req.allocations ≠ some 100) :
    submitAllocations db req =
      (.badRequest "Total allocated points must equal 100", db) :=
  submitAllocations_total_rejected hn he ht

theorem claim_C1_witness :
    codeTotal reqTotal90.allocations ≠ some 100 ∧
    submitAllocations dbTwoPlayers reqTotal90 =
      (.badRequest "Total allocated points must equal 100", dbTwoPlayers) :=
  ⟨by norm_num [codeTotal, reqTotal90, numberOrZero, jsTruthy, jsNumber, List.foldl],
   claim_C1 dbTwoPlayers reqTotal90 (by decide) (by decide)
     (by norm_num [codeTotal, reqTotal90, numberOrZero, jsTruthy, jsNumber, List.foldl])⟩

/-- C4, counterexample: the submission whose single entry {points: 100} lacks
`player_id` passes the total check, and the thrown "player_id missing" aborts
the transaction — but the route reports the generic 500 "Allocation failed",
not a 400 validation error "player_id missing" as the claim states (no
partial application does hold: the state is unchanged). -/
theorem claim_C4_counterexample :
    reqMissingPid.allocations.map AllocEntry.player_id = [none] ∧
    codeTotal reqMissingPid.allocations = some 100 ∧
    (submitAllocations dbTwoPlayers reqMissingPid).1 = .serverError "Allocation failed" ∧
    (submitAllocations dbTwoPlayers reqMissingPid).1 ≠ .badRequest "player_id missing" ∧
    (submitAllocations dbTwoPlayers reqMissingPid).2 = dbTwoPlayers := by
  have h : submitAllocations dbTwoPlayers reqMissingPid =
      (.serverError "Allocation failed", dbTwoPlayers) := by
    simp [submitAllocations, runAllocTx, ensureUser, getUserByEmail, codeTotal,
      numberOrZero, jsTruthy, jsNumber, dbTwoPlayers, reqMissingPid, allocLoop,
      bindPoints, List.find?, List.foldl]
  refine ⟨rfl, ?_, by rw [h], by rw [h]; decide, by rw [h]⟩
  norm_num [codeTotal, reqMissingPid, numberOrZero, jsTruthy, jsNumber, List.foldl]

/-- C4, amended: for every submission with `name`/`email` present and total
exactly 100 in which some entry has a missing (or otherwise falsy) player_id,
the whole submission is rejected — the internal "player_id missing" exception
rolls the transaction back, the state is unchanged and nothing is partially
applied — but the reported rejection is the generic 500 "Allocation failed",
not a 400 validation error. -/
theorem claim_C4 (db : Db) (req : AllocReq) (hn : req.name ≠ "") (he : req.email ≠ "")
    (ht : codeTotal req.allocations = some 100)
    (hex : ∃ a ∈ req.allocations, a.player_id.getD 0 = 0) :
    submitAllocations db req = (.serverError "Allocation failed", db) :=
  submitAllocations_error_of_missing hn he ht hex

theorem claim_C4_witness :
    codeTotal reqMissingPid.allocations = some 100 ∧
    submitAllocations dbTwoPlayers reqMissingPid =
      (.serverError "Allocation failed", dbTwoPlayers) :=
  ⟨by norm_num [codeTotal, reqMissingPid, numberOrZero, jsTruthy, jsNumber, List.foldl],
   claim_C4 dbTwoPlayers reqMissingPid (by decide) (by decide)
     (by norm_num [codeTotal, reqMissingPid, numberOrZero, jsTruthy, jsNumber, List.foldl])
     ⟨⟨none, .num 100⟩, by simp [reqMissingPid], rfl⟩⟩

/-- C2: every leaderboard row belongs to a stored user and carries that
user's aggregate; a user whose allocation list is empty scores 0; when every
allocation of the user resolves to a player the aggregate is exactly
Σ points_allocated × total_points / 100 in rational arithmetic; and in the
scenario (A: 80, B: 20, U allocates {A: 60, B: 40}) U's portfolio is 56. -/
theorem claim_C2 :
    (∀ (db : Db) (r : LBRow), r ∈ leaderboard db →
      ∃ u ∈ db.users, r.id = u.id ∧ r.name = u.name ∧ r.email = u.email ∧
        r.portfolio_points = portfolio db u.id) ∧
    (∀ (db : Db) (uid : Nat),
      db.allocations.filter (fun a => decide (a.user_id = uid)) = [] →
      portfolio db uid = 0) ∧
    (∀ (db : Db) (uid : Nat) (pf : Alloc → Player),
      (∀ a ∈ db.allocations, a.user_id = uid →
        db.players.find? (fun p => decide ((p.id : ℚ) = a.player_id)) = some (pf a)) →
      portfolio db uid =
        ((db.allocations.filter (fun a => decide (a.user_id = uid))).map
          (fun a => a.points_allocated * (pf a).total_points / 100)).sum) ∧
    leaderboard dbPortfolio = [⟨1, "U", "u@x", 56⟩] := by
  refine ⟨fun db r h => leaderboard_mem h, fun db uid h => portfolio_of_no_allocations h,
    fun db uid pf h => portfolio_formula pf h, ?_⟩
  norm_num [leaderboard, portfolio, dbPortfolio, List.insertionSort, List.orderedInsert,
    List.filter, List.foldl, List.find?, List.map, List.take]

theorem claim_C2_witness :
    ((⟨1, "U", "u@x", 56⟩ : LBRow) ∈ leaderboard dbPortfolio ∧
      ∃ u ∈ dbPortfolio.users, (⟨1, "U", "u@x", 56⟩ : LBRow).id = u.id ∧
        (⟨1, "U", "u@x", 56⟩ : LBRow).name = u.name ∧
        (⟨1, "U", "u@x", 56⟩ : LBRow).email = u.email ∧
        (⟨1, "U", "u@x", 56⟩ : LBRow).portfolio_points = portfolio dbPortfolio u.id) ∧
    portfolio dbPortfolio 99 = 0 ∧
    portfolio dbPortfolio 1 =
      ((dbPortfolio.allocations.filter (fun a => decide (a.user_id = 1))).map
        (fun a => a.points_allocated * (pfPortfolio a).total_points / 100)).sum := by
  have hlb : leaderboard dbPortfolio = [⟨1, "U", "u@x", 56⟩] := by
    norm_num [leaderboard, portfolio, dbPortfolio, List.insertionSort,
      List.orderedInsert, List.filter, List.foldl, List.find?, List.map, List.take]
  have hmem : (⟨1, "U", "u@x", 56⟩ : LBRow) ∈ leaderboard dbPortfolio := by
    rw [hlb]
    exact List.mem_singleton.2 rfl
  refine ⟨⟨hmem, claim_C2.1 dbPortfolio _ hmem⟩, claim_C2.2.1 dbPortfolio 99 ?_,
    claim_C2.2.2.1 dbPortfolio 1 pfPortfolio ?_⟩
  · norm_num [dbPortfolio, List.filter]
  · intro a ha hu
    fin_cases ha <;> norm_num [pfPortfolio, dbPortfolio, List.find?]

/-- C3: `castVote` preserves the one-vote-per-(match, email) uniqueness
constraint; a validated re-vote on an existing (match, email) key rewrites
the row in place (same row count, new player_id, refreshed timestamp); and
in the scenario (vote Alpha, then re-vote Beta on match 1) the results show
Beta: 1, Alpha: 0. -/
theorem claim_C3 :
    (∀ (db : Db) (m : ℚ) (req : VoteReq) (now : Nat),
      VoteKeyUnique db.potm_votes → VoteKeyUnique (castVote db m req now).2.potm_votes) ∧
    (∀ (db : Db) (m : ℚ) (req : VoteReq) (now : Nat) (mt : Match),
      ¬(req.name = "" ∨ req.email = "" ∨ req.player_id.getD 0 = 0) →
      db.matchRows.find? (fun mr => decide ((mr.id : ℚ) = m)) = some mt →
      (db.potm_votes.any fun v => decide (v.match_id = m ∧ v.user_email = req.email)) = true →
      (castVote db m req now).2.potm_votes.length = db.potm_votes.length ∧
      ∀ w ∈ (castVote db m req now).2.potm_votes,
        w.match_id = m → w.user_email = req.email →
          w.player_id = req.player_id.getD 0 ∧ w.created_at = now) ∧
    results dbPoll2 1 = [⟨2, "Beta", 1⟩, ⟨1, "Alpha", 0⟩] := by
  refine ⟨fun db m req now h => castVote_keyUnique h, ?_, ?_⟩
  · intro db m req now mt h1 h2 hany
    rw [castVote_success h1 h2]
    have hv : (ensureUser db req.name req.email).2.potm_votes = db.potm_votes :=
      (ensureUser_frame db req.name req.email).2.2
    have h := @upsertVote_inPlace ((ensureUser db req.name req.email).2) m
      (req.player_id.getD 0) req.email now (by rw [hv]; exact hany)
    rw [hv] at h
    exact h
  · norm_num [results, voteCount, dbPoll2, dbPoll1, dbPoll, castVote, ensureUser,
      getUserByEmail, upsertVote, List.insertionSort, List.orderedInsert, resRel,
      List.filter, List.find?, List.map, List.any]

theorem claim_C3_witness :
    VoteKeyUnique dbPoll1.potm_votes ∧
    VoteKeyUnique (castVote dbPoll1 1 ⟨"n", "e", some 2⟩ 1).2.potm_votes ∧
    (castVote dbPoll1 1 ⟨"n", "e", some 2⟩ 1).2.potm_votes.length =
      dbPoll1.potm_votes.length := by
  have hv : dbPoll1.potm_votes = [⟨1, 1, 1, "e", 0⟩] := by
    simp [dbPoll1, dbPoll, castVote, ensureUser, getUserByEmail, upsertVote,
      List.find?, List.any]
  have h1 : VoteKeyUnique dbPoll1.potm_votes := by
    rw [hv]
    exact List.pairwise_singleton _ _
  have hfind : dbPoll1.matchRows.find? (fun mr => decide ((mr.id : ℚ) = 1)) =
      some ⟨1, "2025-01-01", "X", "HOME", "final"⟩ := by
    simp [dbPoll1, dbPoll, castVote, ensureUser, getUserByEmail, upsertVote,
      List.find?, List.any]
  have hany : (dbPoll1.potm_votes.any fun v =>
      decide (v.match_id = 1 ∧ v.user_email = "e")) = true := by
    rw [hv]
    norm_num [List.any]
  refine ⟨h1, claim_C3.1 dbPoll1 1 ⟨"n", "e", some 2⟩ 1 h1,
    (claim_C3.2.1 dbPoll1 1 ⟨"n", "e", some 2⟩ 1 _ ?_ hfind hany).1⟩
  simp

/-- C5: `submitAllocations` preserves the at-most-one-row-per-(user, player)
uniqueness constraint, hence any sequence of submissions from a state
satisfying it (e.g. the empty database) still satisfies it; and on a key
conflict `upsertAllocation` updates the existing row's points in place
without changing the row count. -/
theorem claim_C5 :
    (∀ (db : Db) (req : AllocReq), AllocKeyUnique db.allocations →
      AllocKeyUnique (submitAllocations db req).2.allocations) ∧
    (∀ (reqs : List AllocReq) (db : Db), AllocKeyUnique db.allocations →
      AllocKeyUnique ((reqs.foldl (fun d r => (submitAllocations d r).2) db).allocations)) ∧
    (∀ (allocs : List Alloc) (uid : Nat) (pid pts : ℚ),
      (allocs.any fun a => decide (a.user_id = uid ∧ a.player_id = pid)) = true →
      (upsertAllocation allocs uid pid pts).length = allocs.length ∧
      ∀ a ∈ upsertAllocation allocs uid pid pts,
        a.user_id = uid → a.player_id = pid → a.points_allocated = pts) := by
  refine ⟨fun db req h => submitAllocations_keyUnique h, ?_,
    fun allocs uid pid pts h => upsertAllocation_inPlace h⟩
  intro reqs
  induction reqs with
  | nil => exact fun db h => h
  | cons r rs ih => exact fun db h => ih _ (submitAllocations_keyUnique h)

theorem claim_C5_witness :
    AllocKeyUnique dbPortfolio.allocations ∧
    AllocKeyUnique (submitAllocations dbPortfolio reqTotal90).2.allocations ∧
    (dbPortfolio.allocations.any fun a => decide (a.user_id = 1 ∧ a.player_id = 1)) = true ∧
    (upsertAllocation dbPortfolio.allocations 1 1 25).length =
      dbPortfolio.allocations.length := by
  have h1 : AllocKeyUnique dbPortfolio.allocations := by
    norm_num [AllocKeyUnique, dbPortfolio, List.pairwise_cons]
  have hany : (dbPortfolio.allocations.any fun a =>
      decide (a.user_id = 1 ∧ a.player_id = 1)) = true := by
    norm_num [dbPortfolio, List.any]
  exact ⟨h1, claim_C5.1 dbPortfolio reqTotal90 h1, hany,
    (claim_C5.2.2 dbPortfolio.allocations 1 1 25 hany).1⟩

/-- C6: for every state and match id, the results list has exactly one row
per registered player (its player ids are a permutation of the registry's),
each row's vote count is that player's count for the match (0 when the
player has no votes), and the list is ordered by votes descending with ties
broken by ascending player name. -/
theorem claim_C6 (db : Db) (m : ℚ) :
    ((results db m).map ResRow.player_id).Perm (db.players.map Player.id) ∧
    (∀ r ∈ results db m, r.votes = voteCount db m r.player_id) ∧
    (∀ p ∈ db.players, ∃ r ∈ results db m,
      r.player_id = p.id ∧ r.player_name = p.name ∧ r.votes = voteCount db m p.id) ∧
    List.Sorted resRel (results db m) := by
  refine ⟨?_, ?_, ?_, List.sorted_insertionSort resRel _⟩
  · have hp := (List.perm_insertionSort resRel
      (db.players.map (fun p => ResRow.mk p.id p.name (voteCount db m p.id)))).map
      ResRow.player_id
    unfold results
    refine hp.trans ?_
    rw [List.map_map]
    exact List.Perm.refl _
  · intro r hr
    unfold results at hr
    rcases List.mem_map.1 ((List.mem_insertionSort resRel).1 hr) with ⟨p, _, rfl⟩
    rfl
  · intro p hp
    refine ⟨ResRow.mk p.id p.name (voteCount db m p.id), ?_, rfl, rfl, rfl⟩
    unfold results
    exact (List.mem_insertionSort resRel).2 (List.mem_map.2 ⟨p, hp, rfl⟩)

theorem claim_C6_witness :
    (⟨2, "Beta", 1⟩ : ResRow) ∈ results dbPoll2 1 ∧
    (⟨2, "Beta", 1⟩ : ResRow).votes = voteCount dbPoll2 1 (⟨2, "Beta", 1⟩ : ResRow).player_id ∧
    (⟨1, "Alpha", "", "", 0⟩ : Player) ∈ dbPoll2.players ∧
    ∃ r ∈ results dbPoll2 1, r.player_id = (⟨1, "Alpha", "", "", 0⟩ : Player).id ∧
      r.player_name = (⟨1, "Alpha", "", "", 0⟩ : Player).name ∧
      r.votes = voteCount dbPoll2 1 (⟨1, "Alpha", "", "", 0⟩ : Player).id := by
  have hres : results dbPoll2 1 = [⟨2, "Beta", 1⟩, ⟨1, "Alpha", 0⟩] := by
    norm_num [results, voteCount, dbPoll2, dbPoll1, dbPoll, castVote, ensureUser,
      getUserByEmail, upsertVote, List.insertionSort, List.orderedInsert, resRel,
      List.filter, List.find?, List.map, List.any]
  have hmem : (⟨2, "Beta", 1⟩ : ResRow) ∈ results dbPoll2 1 := by
    rw [hres]
    exact List.mem_cons_self _ _
  have hply : (⟨1, "Alpha", "", "", 0⟩ : Player) ∈ dbPoll2.players := by
    simp [dbPoll2, dbPoll1, dbPoll, castVote, ensureUser, getUserByEmail, upsertVote,
      List.find?, List.any]
  exact ⟨hmem, (claim_C6 dbPoll2 1).2.1 _ hmem, hply, (claim_C6 dbPoll2 1).2.2.1 _ hply⟩

/-- C7: the leaderboard is ordered by portfolio_points descending with ties
broken by ascending user id, and has at most 100 entries. -/
theorem claim_C7 (db : Db) :
    List.Sorted lbRel (leaderboard db) ∧ (leaderboard db).length ≤ 100 :=
  ⟨List.Pairwise.sublist (List.take_sublist _ _) (List.sorted_insertionSort lbRel _),
   List.length_take_le _ _⟩

/-- C8: an unknown player id makes `adjustPoints` 404 without a write; on an
existing player the new total is computed by applying a numeric `set` first
and a numeric `delta` second (both may apply in one call), is reported in the
response and stored on the player; and in the scenario set 50 then delta 10
leaves the player's total_points at 60. -/
theorem claim_C8 :
    (∀ (db : Db) (id : ℚ) (delta set : JsVal),
      db.players.find? (fun p => decide ((p.id : ℚ) = id)) = none →
      adjustPoints db id delta set = (.notFound "Player not found", db)) ∧
    (∀ cur s d : ℚ, newTotalCalc cur (.num d) (.num s) = s + d) ∧
    (∀ (cur s : ℚ) (delta : JsVal), (∀ q, delta ≠ .num q) →
      newTotalCalc cur delta (.num s) = s) ∧
    (∀ (cur d : ℚ) (set : JsVal), (∀ q, set ≠ .num q) →
      newTotalCalc cur (.num d) set = cur + d) ∧
    (∀ (db : Db) (id : ℚ) (delta set : JsVal) (row : Player),
      db.players.find? (fun p => decide ((p.id : ℚ) = id)) = some row →
      (adjustPoints db id delta set).1 =
        .okPoints id (newTotalCalc row.total_points delta set) ∧
      ∀ p ∈ (adjustPoints db id delta set).2.players, (p.id : ℚ) = id →
        p.total_points = newTotalCalc row.total_points delta set) ∧
    ((adjustPoints dbOnePlayer50 1 (.num 10) .undef).1 = .okPoints 1 60 ∧
      (adjustPoints dbOnePlayer50 1 (.num 10) .undef).2.players =
        [⟨1, "A", "", "", 60⟩]) := by
  refine ⟨fun db id delta set h => adjustPoints_notFound h,
    fun cur s d => newTotalCalc_both cur s d,
    fun cur s delta h => newTotalCalc_set_only cur s delta h,
    fun cur d set h => newTotalCalc_delta_only cur d set h,
    fun db id delta set row h => adjustPoints_found h, ?_⟩
  norm_num [adjustPoints, newTotalCalc, dbOnePlayer50, dbOnePlayer, List.find?, List.map]

theorem claim_C8_witness :
    dbOnePlayer.players.find? (fun p => decide ((p.id : ℚ) = 7)) = none ∧
    adjustPoints dbOnePlayer 7 .undef .undef = (.notFound "Player not found", dbOnePlayer) ∧
    newTotalCalc 0 (.num 10) (.num 50) = 50 + 10 ∧
    newTotalCalc 0 .undef (.num 50) = 50 ∧
    newTotalCalc (50 : ℚ) (.num 10) .undef = 50 + 10 ∧
    dbOnePlayer.players.find? (fun p => decide ((p.id : ℚ) = 1)) = some ⟨1, "A", "", "", 0⟩ ∧
    (adjustPoints dbOnePlayer 1 (.num 10) (.num 50)).1 =
      .okPoints 1 (newTotalCalc (⟨1, "A", "", "", 0⟩ : Player).total_points (.num 10) (.num 50)) := by
  have hn : dbOnePlayer.players.find? (fun p => decide ((p.id : ℚ) = 7)) = none := by
    simp [dbOnePlayer, List.find?]
  have hs : dbOnePlayer.players.find? (fun p => decide ((p.id : ℚ) = 1)) =
      some ⟨1, "A", "", "", 0⟩ := by
    simp [dbOnePlayer, List.find?]
  exact ⟨hn, claim_C8.1 dbOnePlayer 7 .undef .undef hn,
    claim_C8.2.1 0 50 10,
    claim_C8.2.2.1 0 50 .undef (fun q h => by cases h),
    claim_C8.2.2.2.1 50 10 .undef (fun q h => by cases h),
    hs, (claim_C8.2.2.2.2.1 dbOnePlayer 1 (.num 10) (.num 50) _ hs).1⟩

/-- C9: when the email already has a user row, the lookup finds it, the
returned row is exactly the stored one (same email, member of the table),
and neither an allocation submission nor a vote changes the users table —
in particular the stored name is never overwritten by the supplied name. -/
theorem claim_C9 :
    (∀ (db : Db) (email : String), (∃ u ∈ db.users, u.email = email) →
      (getUserByEmail db.users email).isSome = true) ∧
    (∀ (db : Db) (req : AllocReq) (u : User),
      getUserByEmail db.users req.email = some u →
      (submitAllocations db req).2.users = db.users ∧
      ∀ u', (submitAllocations db req).1 = .okUser u' → u' = u) ∧
    (∀ (db : Db) (m : ℚ) (req : VoteReq) (now : Nat) (u : User),
      getUserByEmail db.users req.email = some u →
      (castVote db m req now).2.users = db.users) ∧
    (∀ (db : Db) (email : String) (u : User),
      getUserByEmail db.users email = some u → u ∈ db.users ∧ u.email = email) := by
  refine ⟨?_, fun db req u h => submitAllocations_users_frame h,
    fun db m req now u h => castVote_users_frame h, ?_⟩
  · rintro db email ⟨u, hu, he⟩
    exact List.find?_isSome.2 ⟨u, hu, decide_eq_true he⟩
  · intro db email u h
    have hb := List.find?_some h
    exact ⟨List.mem_of_find?_eq_some h, of_decide_eq_true hb⟩

theorem claim_C9_witness :
    getUserByEmail dbPortfolio.users "u@x" = some ⟨1, "U", "u@x"⟩ ∧
    (getUserByEmail dbPortfolio.users "u@x").isSome = true ∧
    (submitAllocations dbPortfolio ⟨"other", "u@x", []⟩).2.users = dbPortfolio.users ∧
    (castVote dbPortfolio 1 ⟨"other", "u@x", some 1⟩ 5).2.users = dbPortfolio.users ∧
    ((⟨1, "U", "u@x"⟩ : User) ∈ dbPortfolio.users ∧
      (⟨1, "U", "u@x"⟩ : User).email = "u@x") := by
  have hfind : getUserByEmail dbPortfolio.users "u@x" = some ⟨1, "U", "u@x"⟩ := by
    simp [getUserByEmail, dbPortfolio, List.find?]
  exact ⟨hfind,
    claim_C9.1 dbPortfolio "u@x" ⟨⟨1, "U", "u@x"⟩, by simp [dbPortfolio], rfl⟩,
    (claim_C9.2.1 dbPortfolio ⟨"other", "u@x", []⟩ _ hfind).1,
    claim_C9.2.2.1 dbPortfolio 1 ⟨"other", "u@x", some 1⟩ 5 _ hfind,
    claim_C9.2.2.2 dbPortfolio "u@x" _ hfind⟩

/-- C10: a point adjustment on an existing player (with the usual distinct
AUTOINCREMENT ids) in which neither `set` nor `delta` is a number — absent,
null, or a string, even a numeric one — succeeds, reports the stored total
and leaves the database (in particular the player's total_points) unchanged. -/
theorem claim_C10 (db : Db) (id : ℚ) (delta set : JsVal) (row : Player)
    (hids : db.players.Pairwise (fun p q => p.id ≠ q.id))
    (hfind : db.players.find? (fun p => decide ((p.id : ℚ) = id)) = some row)
    (hd : ∀ q, delta ≠ .num q) (hs : ∀ q, set ≠ .num q) :
    adjustPoints db id delta set = (.okPoints id row.total_points, db) :=
  adjustPoints_noop hids hfind hd hs

theorem claim_C10_witness :
    dbOnePlayer.players.Pairwise (fun p q => p.id ≠ q.id) ∧
    adjustPoints dbOnePlayer 1 (.str "5") .null = (.okPoints 1 0, dbOnePlayer) := by
  have hfind : dbOnePlayer.players.find? (fun p => decide ((p.id : ℚ) = 1)) =
      some ⟨1, "A", "", "", 0⟩ := by
    simp [dbOnePlayer, List.find?]
  have hids : dbOnePlayer.players.Pairwise (fun p q => p.id ≠ q.id) := by
    simp [dbOnePlayer]
  exact ⟨hids, claim_C10 dbOnePlayer 1 (.str "5") .null ⟨1, "A", "", "", 0⟩ hids hfind
    (fun q h => by cases h) (fun q h => by cases h)⟩

end CulersCorner
